import Mathlib

/-
Verification of the Manzanillo digital-twin decision core against its design
document.  The development shallowly embeds the three algorithmic modules:
the fire-spread engine (src/fire_engine.py), the greedy resource allocator
(src/quantum_bridge.py) and the logistics router (src/logistics_engine.py).
Machine floats are modelled as real numbers, numpy arrays as functions with
explicit integer bounds, python dicts as association lists, and every random
source (per-cell ignition draws, per-asset score noise) as an explicit
parameter.  External libraries (rasterio, cv2, osmnx/networkx) appear only
through their results: the loaded raster, the extracted contour vertex list
and the outcome of the road-graph routing attempt are parameters of the
corresponding definitions.
-/

/- ---------------------------------------------------------------------
String utilities: python's `needle in haystack` substring test.
--------------------------------------------------------------------- -/

/-- Whether the second character list is a leading block of the first. -/
def startsWithChars : List Char → List Char → Bool
  | _, [] => true
  | [], _ :: _ => false
  | h :: t, nh :: nt => h == nh && startsWithChars t nt

/-- Whether the second character list occurs contiguously in the first. -/
def hasSubChars : List Char → List Char → Bool
  | [], needle => needle.isEmpty
  | h :: t, needle => startsWithChars (h :: t) needle || hasSubChars t needle

/-- Python's substring test `needle in hay`. -/
def containsStr (hay needle : String) : Bool :=
  hasSubChars hay.toList needle.toList

/- ---------------------------------------------------------------------
Fire engine: data model (fire_engine.py).
--------------------------------------------------------------------- -/

/-- The engine's geospatial state: the risk raster with its shape, as loaded
by FireSimulationEngine._load_geospatial_data.  `risk` is meaningful on
rows 0..H-1 and columns 0..W-1. -/
structure Env where
  H : ℕ
  W : ℕ
  risk : ℤ → ℤ → ℝ

/-- The in-bounds test `0 <= y < shape[0] and 0 <= x < shape[1]`. -/
def inb (e : Env) (y x : ℤ) : Prop :=
  0 ≤ y ∧ y < (e.H : ℤ) ∧ 0 ≤ x ∧ x < (e.W : ℤ)

instance (e : Env) (y x : ℤ) : Decidable (inb e y x) := by
  unfold inb; infer_instance

/-- Steps per simulated run: `steps = int(duration_hours * 6)`
(10-minute ticks; a negative duration yields an empty loop). -/
def simSteps (durationHours : ℚ) : ℕ := (⌊durationHours * 6⌋).toNat

/-- All-zero frame, the default when indexing a frame list out of range. -/
def dfltFrame : ℤ → ℤ → ℕ := fun _ _ => 0

noncomputable section

/-- Engine constant self.wind_factor. -/
def wind_factor : ℝ := 0.08

/-- Engine constant self.base_spread_prob (set in __init__, unused by the
simulation loop). -/
def base_spread_prob : ℝ := 0.15

/-- Degrees to radians, math.radians. -/
def radians (d : ℝ) : ℝ := d * Real.pi / 180

/-- The wind bias pair `u, v` of _generate_wind_kernel:
`rad = radians(direction - 90)`, `u = speed*cos(rad)*wind_factor`,
`v = speed*sin(rad)*wind_factor`. -/
def wind_uv (speed direction : ℝ) : ℝ × ℝ :=
  (speed * Real.cos (radians (direction - 90)) * wind_factor,
   speed * Real.sin (radians (direction - 90)) * wind_factor)

/-- The 3x3 kernel of FireSimulationEngine._generate_wind_kernel: uniform
neighbour weight 0.1 with centre 0, then `k[2,:] += v` when `v > 0`,
`k[0,:] += |v|` when `v < 0`, `k[:,2] += u` when `u > 0`, and
`k[:,0] += |u|` when `u < 0`.  Row index 0 is the top (north) row,
row 2 the bottom (south) row; column 2 is the east column. -/
def generate_wind_kernel (speed direction : ℝ) : Fin 3 → Fin 3 → ℝ :=
  fun i j =>
    (if i = 1 ∧ j = 1 then 0 else 0.1)
      + (if 0 < (wind_uv speed direction).2 ∧ i = 2 then (wind_uv speed direction).2 else 0)
      + (if (wind_uv speed direction).2 < 0 ∧ i = 0 then |(wind_uv speed direction).2| else 0)
      + (if 0 < (wind_uv speed direction).1 ∧ j = 2 then (wind_uv speed direction).1 else 0)
      + (if (wind_uv speed direction).1 < 0 ∧ j = 0 then |(wind_uv speed direction).1| else 0)

/-- Reads a state grid as scipy's zero-padded boundary does: cells outside
the raster shape read as 0 (mode='constant'). -/
def clampGrid (e : Env) (s : ℤ → ℤ → ℝ) : ℤ → ℤ → ℝ :=
  fun y x => if inb e y x then s y x else 0

/-- `scipy.ndimage.convolve(current_state, kernel, mode='constant')` at one
cell: true convolution, so the kernel is mirrored about its centre. -/
def influence (e : Env) (K : Fin 3 → Fin 3 → ℝ) (s : ℤ → ℤ → ℝ) (y x : ℤ) : ℝ :=
  ∑ a : Fin 3, ∑ b : Fin 3,
    K a b * clampGrid e s (y - ((a : ℤ) - 1)) (x - ((b : ℤ) - 1))

/-- One simulation step of run_simulation's loop body:
`prob_map = convolve(state, kernel) * (risk + 0.1)`;
`new_ignitions = (prob_map > roll) & (risk > 0.1)`;
`state = maximum(state, new_ignitions)`.  Cells outside the raster do not
exist in the numpy arrays; the function representation keeps them at 0. -/
def stepState (e : Env) (K : Fin 3 → Fin 3 → ℝ) (roll : ℤ → ℤ → ℝ)
    (s : ℤ → ℤ → ℝ) : ℤ → ℤ → ℝ :=
  fun y x =>
    if inb e y x then
      max (s y x)
        (if roll y x < influence e K s y x * (e.risk y x + 0.1) ∧ 0.1 < e.risk y x
         then 1 else 0)
    else 0

/-- The fire grid after t steps; `roll t` is the grid of uniform draws used
by step t (np.random.rand). -/
def stateAt (e : Env) (K : Fin 3 → Fin 3 → ℝ) (roll : ℕ → ℤ → ℤ → ℝ)
    (init : ℤ → ℤ → ℝ) : ℕ → ℤ → ℤ → ℝ
  | 0 => init
  | t + 1 => stepState e K (roll t) (stateAt e K roll init t)

/-- The initial fire grid of run_simulation: all zeros, with the ignition
pixel set to 1.0 only when it lies in bounds. -/
def initState (e : Env) (sx sy : ℤ) : ℤ → ℤ → ℝ :=
  fun y x => if inb e sy sx ∧ y = sy ∧ x = sx then 1 else 0

/-- Frame quantisation `(state * 255).astype(np.uint8)`: truncate toward
zero and wrap into the uint8 range. -/
def quantize (x : ℝ) : ℕ := (⌊x * 255⌋).toNat % 256

/-- FireSimulationEngine.run_simulation: the list of steps+1 quantised
frames (the initial state plus one frame per step). -/
def run_simulation (e : Env) (sx sy : ℤ) (speed dir : ℝ) (durationHours : ℚ)
    (roll : ℕ → ℤ → ℤ → ℝ) : List (ℤ → ℤ → ℕ) :=
  (List.range (simSteps durationHours + 1)).map
    (fun t y x => quantize (stateAt e (generate_wind_kernel speed dir) roll (initState e sx sy) t y x))

/- ---------------------------------------------------------------------
Fire engine: raster loading (_load_geospatial_data).
--------------------------------------------------------------------- -/

/-- The possible outcomes of opening the raster file: the path does not
exist, rasterio raises, or a grid of the given shape is read.  `maxVal`
abstracts `data.max()` over the (finite) raster. -/
inductive RasterLoad
  | missing
  | unreadable
  | ok (H W : ℕ) (data : ℤ → ℤ → ℝ) (maxVal : ℝ)

/-- FireSimulationEngine._load_geospatial_data: a missing path and any read
exception both fall back to np.zeros((600, 800)); otherwise the data is
normalised by 255 exactly when its maximum exceeds 1. -/
def load_geospatial_data : RasterLoad → Env
  | .missing => ⟨600, 800, fun _ _ => 0⟩
  | .unreadable => ⟨600, 800, fun _ _ => 0⟩
  | .ok H W data maxVal =>
      ⟨H, W, fun y x => if 1 < maxVal then data y x / 255 else data y x⟩

/- ---------------------------------------------------------------------
Fire engine: tactical analysis (analyze_tactics), vertex selection.
The contour vertex list `pts` and centroid `(cx, cy)` are the results of
the cv2 contour and moment computations on the fire mask.
--------------------------------------------------------------------- -/

/-- The spread direction used by analyze_tactics:
`rad = radians(wind_dir - 90)`, `vx = cos(rad)`, `vy = sin(rad)`
(positive y points down in image coordinates). -/
def spread_vec (windDir : ℝ) : ℝ × ℝ :=
  (Real.cos (radians (windDir - 90)), Real.sin (radians (windDir - 90)))

/-- `np.dot(pts - [cx, cy], [vx, vy])`: projection of every contour vertex,
taken relative to the centroid, onto the spread vector. -/
def projections (pts : List (ℤ × ℤ)) (cx cy : ℤ) (windDir : ℝ) : List ℝ :=
  pts.map (fun p =>
    ((p.1 - cx : ℤ) : ℝ) * (spread_vec windDir).1 +
    ((p.2 - cy : ℤ) : ℝ) * (spread_vec windDir).2)

/-- Tail of np.argmax: scan the remaining values, keeping the first index
at which the running maximum is attained (a later value replaces the
current best only when strictly larger). -/
def argmaxGo : List ℝ → ℕ → ℕ → ℝ → ℕ
  | [], _, bi, _ => bi
  | x :: rest, i, bi, bv =>
      if bv < x then argmaxGo rest (i + 1) i x else argmaxGo rest (i + 1) bi bv

/-- np.argmax over a list of reals (first index of the maximum; 0 on the
empty list, which numpy instead rejects). -/
def argmaxIdx : List ℝ → ℕ
  | [] => 0
  | x :: rest => argmaxGo rest 1 0 x

/-- The Alpha Head vertex of analyze_tactics: `pts[argmax(projections)]`. -/
def alpha_head (pts : List (ℤ × ℤ)) (cx cy : ℤ) (windDir : ℝ) : ℤ × ℤ :=
  pts.getD (argmaxIdx (projections pts cx cy windDir)) (0, 0)

end

/- ---------------------------------------------------------------------
Quantum bridge: greedy resource allocator (quantum_bridge.py).
--------------------------------------------------------------------- -/

/-- One fleet unit of QuantumResourceSolver.fleet. -/
structure Asset where
  id : String
  type : String
  specialty : String
deriving DecidableEq

/-- The fixed five-unit roster installed by QuantumResourceSolver.__init__. -/
def defaultFleet : List Asset :=
  [⟨"TANKER-01", "Aerial", "Head"⟩,
   ⟨"ENGINE-A", "Ground", "Flank"⟩,
   ⟨"ENGINE-B", "Ground", "Flank"⟩,
   ⟨"DRONE-X1", "Intel", "Spot"⟩,
   ⟨"CREW-ZULU", "Ground", "Flank"⟩]

/-- The allocator's mutable state: its current fleet list. -/
structure Solver where
  fleet : List Asset
deriving DecidableEq

/-- One emitted assignment record of optimize_response. -/
structure Assignment where
  asset_id : String
  target : String
  coords : ℚ × ℚ
deriving DecidableEq

/-- The deterministic part of an asset's score for a target: +50 when the
specialty occurs in the target label, +30 more for an Aerial unit on a
label containing "Head". -/
def scoreBase (tname : String) (a : Asset) : ℚ :=
  (if containsStr tname a.specialty then 50 else 0) +
  (if a.type == "Aerial" && containsStr tname "Head" then 30 else 0)

/-- One comparison of optimize_response's inner loop: the k-th noise draw
(`random.uniform(-5, 5)`) is added to asset a's base score, and a replaces
the best-so-far accumulator exactly when its score is strictly greater
(`best_score` starts at -inf, so the first asset always becomes best). -/
def betterOf (tname : String) (noise : ℕ → ℚ) (k : ℕ) (a : Asset) :
    Option (Asset × ℚ) → Option (Asset × ℚ)
  | none => some (a, scoreBase tname a + noise k)
  | some (b, bs) =>
      if bs < scoreBase tname a + noise k
      then some (a, scoreBase tname a + noise k)
      else some (b, bs)

/-- The inner loop of optimize_response for one target: scan the fleet,
consuming one noise draw per asset, keeping the strictly-best asset. -/
def pickBestAux (tname : String) (noise : ℕ → ℚ) :
    List Asset → ℕ → Option (Asset × ℚ) → Option (Asset × ℚ)
  | [], _, best => best
  | a :: rest, k, best =>
      pickBestAux tname noise rest (k + 1) (betterOf tname noise k a best)

/-- The outer loop of optimize_response: process targets in order; when a
best asset exists (iff the pool is non-empty), emit the assignment and
filter that asset's id out of the pool.  `k` counts the noise draws made
so far. -/
def optimizeAux (noise : ℕ → ℚ) :
    List (String × ℚ × ℚ) → List Asset → ℕ → List Assignment
  | [], _, _ => []
  | (tn, tc) :: rest, fleet, k =>
      match pickBestAux tn noise fleet k none with
      | none => optimizeAux noise rest fleet (k + fleet.length)
      | some (a, _) =>
          ⟨a.id, tn, tc⟩ ::
            optimizeAux noise rest (fleet.filter (fun b => b.id != a.id))
              (k + fleet.length)

/-- QuantumResourceSolver.optimize_response: returns the assignment list
and the post-call solver state; the trailing `self.__init__()` resets the
fleet to the full roster before returning. -/
def optimize_response (s : Solver) (targets : List (String × ℚ × ℚ))
    (noise : ℕ → ℚ) : List Assignment × Solver :=
  (optimizeAux noise targets s.fleet 0, ⟨defaultFleet⟩)

/-- The noise-bound side condition of a run: every uniform(-5, 5) draw
lies in [-5, 5]. -/
def noiseBound (noise : ℕ → ℚ) : Prop := ∀ k, -5 ≤ noise k ∧ noise k ≤ 5

/-- The all-zero noise source (noise pinned to zero). -/
def noiseZero : ℕ → ℚ := fun _ => 0

/- ---------------------------------------------------------------------
Logistics engine: routing (logistics_engine.py).
--------------------------------------------------------------------- -/

/-- One base record of LogisticsRouter.BASES. -/
structure Base where
  lat : ℝ
  lon : ℝ
  name : String

/-- A route record as returned by calculate_route / _make_direct_route. -/
structure Route where
  origin : String
  distance_km : ℝ
  duration_min : ℤ
  path : List (ℝ × ℝ)
  type : String

/-- The keys of the LogisticsRouter.BASES table. -/
def baseKeys : List String :=
  ["TANKER", "ENGINE-A", "ENGINE-B", "CREW-ZULU", "DRONE-X1"]

/-- Base-key resolution at the top of calculate_route: "TANKER" for any id
containing it, else the id itself when it is a table key, else the ENGINE
and CREW fallbacks, else ENGINE-A. -/
def resolveBase (assetId : String) : String :=
  let k := if containsStr assetId "TANKER" then "TANKER" else assetId
  if k ∈ baseKeys then k
  else if containsStr assetId "ENGINE" then "ENGINE-A"
  else if containsStr assetId "CREW" then "CREW-ZULU"
  else "ENGINE-A"

noncomputable section

/-- The LogisticsRouter.BASES table (resolveBase only ever produces the
five listed keys; DRONE-X1 is the final case). -/
def BASES : String → Base := fun k =>
  if k = "TANKER" then ⟨19.1438, -104.5596, "Manzanillo Intl Airport (ZLO)"⟩
  else if k = "ENGINE-A" then ⟨19.0520, -104.3140, "Bomberos Manzanillo Central"⟩
  else if k = "ENGINE-B" then ⟨19.1150, -104.3390, "Station 2 - Santiago"⟩
  else if k = "CREW-ZULU" then ⟨19.0980, -104.2850, "Foward Ops Base"⟩
  else ⟨19.0600, -104.2950, "Port Command"⟩

/-- The LogisticsRouter.SPEEDS table (km/h). -/
def SPEEDS (k : String) : ℝ :=
  if k = "Air" then 250 else if k = "Road" then 50 else 15

/-- math.atan2 y x, realised as the argument of the complex number x + iy. -/
def atan2 (y x : ℝ) : ℝ := Complex.arg ⟨x, y⟩

/-- LogisticsRouter._haversine: great-circle distance, Earth radius 6371 km. -/
def haversine (lat1 lon1 lat2 lon2 : ℝ) : ℝ :=
  let dlat := radians (lat2 - lat1)
  let dlon := radians (lon2 - lon1)
  let a := Real.sin (dlat / 2) ^ 2 +
    Real.cos (radians lat1) * Real.cos (radians lat2) * Real.sin (dlon / 2) ^ 2
  6371 * (2 * atan2 (Real.sqrt a) (Real.sqrt (1 - a)))

/-- Python round(x, 2).  (Python rounds half to even; the distinction only
matters on exact half-cent ties, which no verified property touches.) -/
def round2 (x : ℝ) : ℝ := (⌊x * 100 + 1 / 2⌋ : ℤ) / 100

/-- LogisticsRouter._make_direct_route: a two-point straight-line route at
the given speed, `duration = max(1, int(dist/speed*60) + 2)`. -/
def make_direct_route (start : Base) (latT lonT : ℝ) (speedKmh : ℝ)
    (mode : String) : Route :=
  { origin := start.name
    distance_km := round2 (haversine start.lat start.lon latT lonT)
    duration_min := max 1 (⌊haversine start.lat start.lon latT lonT / speedKmh * 60⌋ + 2)
    path := [(start.lat, start.lon), (latT, lonT)]
    type := mode }

/-- The state of the road network seen by one calculate_route call:
either no graph was loaded (self.graph is None), or a graph is present and
the smart-routing try-block (subgraph construction, snapping, shortest
path over osmnx/networkx) produces a route or raises.  `present none`
models any exception inside the block. -/
inductive GraphState
  | absent
  | present (attempt : Option Route)

/-- LogisticsRouter.calculate_route: air units fly direct at 250 km/h;
ground units take the smart route when it succeeds and otherwise fall back
to a direct route at the 15 km/h off-road speed tagged "Direct (Nav Fail)". -/
def calculate_route (g : GraphState) (latT lonT : ℝ) (assetId : String) : Route :=
  let start := BASES (resolveBase assetId)
  if containsStr assetId "TANKER" || containsStr assetId "DRONE" then
    make_direct_route start latT lonT (SPEEDS "Air") "Air Direct"
  else
    match g with
    | .present (some r) => r
    | .present none => make_direct_route start latT lonT (SPEEDS "Offroad") "Direct (Nav Fail)"
    | .absent => make_direct_route start latT lonT (SPEEDS "Offroad") "Direct (Nav Fail)"

/- ---------------------------------------------------------------------
Concrete inputs used by the counterexamples and witnesses.
--------------------------------------------------------------------- -/

/-- A 100x100 raster (the out-of-bounds example shape of the design doc). -/
def e100 : Env := ⟨100, 100, fun _ _ => 0⟩

/-- A 1x1 raster for small witness runs. -/
def envW : Env := ⟨1, 1, fun _ _ => 0⟩

/-- The all-zero random-draw source. -/
def rollZero : ℕ → ℤ → ℤ → ℝ := fun _ _ _ => 0

/-- Nonnegative draws: what np.random.rand actually produces ([0, 1)). -/
def nonnegRolls (roll : ℕ → ℤ → ℤ → ℝ) : Prop := ∀ t y x, 0 ≤ roll t y x

end

/- ---------------------------------------------------------------------
Helper lemmas: fire-state invariants.
--------------------------------------------------------------------- -/

theorem initState_eq_zero_of_not_inb (e : Env) (sx sy y x : ℤ) (h : ¬ inb e y x) :
    initState e sx sy y x = 0 := by
  unfold initState
  rw [if_neg]
  rintro ⟨hseed, rfl, rfl⟩
  exact h hseed

theorem stateAt_eq_zero_outside (e : Env) (K : Fin 3 → Fin 3 → ℝ)
    (roll : ℕ → ℤ → ℤ → ℝ) (sx sy y x : ℤ) (h : ¬ inb e y x) (t : ℕ) :
    stateAt e K roll (initState e sx sy) t y x = 0 := by
  cases t with
  | zero => exact initState_eq_zero_of_not_inb e sx sy y x h
  | succ t =>
      show stepState e K (roll t) _ y x = 0
      unfold stepState
      rw [if_neg h]

theorem stateAt_le_succ (e : Env) (K : Fin 3 → Fin 3 → ℝ)
    (roll : ℕ → ℤ → ℤ → ℝ) (sx sy : ℤ) (t : ℕ) (y x : ℤ) :
    stateAt e K roll (initState e sx sy) t y x ≤
      stateAt e K roll (initState e sx sy) (t + 1) y x := by
  by_cases h : inb e y x
  · show _ ≤ stepState e K (roll t) _ y x
    unfold stepState
    rw [if_pos h]
    exact le_max_left _ _
  · rw [stateAt_eq_zero_outside e K roll sx sy y x h t,
        stateAt_eq_zero_outside e K roll sx sy y x h (t + 1)]

theorem stateAt_mem01 (e : Env) (K : Fin 3 → Fin 3 → ℝ)
    (roll : ℕ → ℤ → ℤ → ℝ) (sx sy : ℤ) (t : ℕ) :
    ∀ y x : ℤ, stateAt e K roll (initState e sx sy) t y x = 0 ∨
      stateAt e K roll (initState e sx sy) t y x = 1 := by
  induction t with
  | zero =>
      intro y x
      unfold stateAt initState
      split
      · right; rfl
      · left; rfl
  | succ t ih =>
      intro y x
      show (stepState e K (roll t) _ y x = 0) ∨ (stepState e K (roll t) _ y x = 1)
      unfold stepState
      split
      · rcases ih y x with h | h <;> rw [h] <;> split
        · right; exact max_eq_right zero_le_one
        · left; exact max_self 0
        · right; exact max_self 1
        · right; exact max_eq_left zero_le_one
      · left; rfl

theorem quantize_zero : quantize 0 = 0 := by
  unfold quantize
  norm_num

theorem quantize_one : quantize 1 = 255 := by
  have h : (1 : ℝ) * 255 = ((255 : ℤ) : ℝ) := by norm_num
  unfold quantize
  rw [h, Int.floor_intCast]
  rfl

theorem quantize_mono01 {a b : ℝ} (ha : a = 0 ∨ a = 1) (hb : b = 0 ∨ b = 1)
    (hab : a ≤ b) : quantize a ≤ quantize b := by
  rcases ha with rfl | rfl
  · rcases hb with rfl | rfl
    · exact le_refl _
    · rw [quantize_zero, quantize_one]; norm_num
  · rcases hb with rfl | rfl
    · exact absurd hab (by norm_num)
    · exact le_refl _

theorem run_length (e : Env) (sx sy : ℤ) (speed dir : ℝ) (dur : ℚ)
    (roll : ℕ → ℤ → ℤ → ℝ) :
    (run_simulation e sx sy speed dir dur roll).length = simSteps dur + 1 := by
  simp [run_simulation]

theorem run_getD (e : Env) (sx sy : ℤ) (speed dir : ℝ) (dur : ℚ)
    (roll : ℕ → ℤ → ℤ → ℝ) (t : ℕ) (ht : t < simSteps dur + 1) (y x : ℤ) :
    (run_simulation e sx sy speed dir dur roll).getD t dfltFrame y x =
      quantize (stateAt e (generate_wind_kernel speed dir) roll (initState e sx sy) t y x) := by
  unfold run_simulation
  rw [List.getD_eq_getElem _ _ (by simpa using ht)]
  simp

theorem run_getD_out (e : Env) (sx sy : ℤ) (speed dir : ℝ) (dur : ℚ)
    (roll : ℕ → ℤ → ℤ → ℝ) (t : ℕ) (ht : ¬ t < simSteps dur + 1) (y x : ℤ) :
    (run_simulation e sx sy speed dir dur roll).getD t dfltFrame y x = 0 := by
  unfold run_simulation
  rw [List.getD_eq_default _ _ (by simpa using Nat.le_of_not_lt ht)]
  rfl

theorem stateAt_all_zero (e : Env) (K : Fin 3 → Fin 3 → ℝ)
    (roll : ℕ → ℤ → ℤ → ℝ) (sx sy : ℤ) (hout : ¬ inb e sy sx)
    (hroll : nonnegRolls roll) (t : ℕ) :
    ∀ y x : ℤ, stateAt e K roll (initState e sx sy) t y x = 0 := by
  induction t with
  | zero =>
      intro y x
      unfold stateAt initState
      rw [if_neg]
      rintro ⟨hseed, -, -⟩
      exact hout hseed
  | succ t ih =>
      intro y x
      show stepState e K (roll t) _ y x = 0
      unfold stepState
      split
      · have hinf : influence e K (stateAt e K roll (initState e sx sy) t) y x = 0 := by
          unfold influence clampGrid
          refine Finset.sum_eq_zero fun a _ => Finset.sum_eq_zero fun b _ => ?_
          split
          · rw [ih]; exact mul_zero _
          · exact mul_zero _
        rw [hinf, zero_mul, if_neg, ih, max_self]
        rintro ⟨hlt, -⟩
        exact absurd hlt (not_lt.2 (hroll t y x))
      · rfl

/- ---------------------------------------------------------------------
Claims C1, C3, C4, C10: fire simulation and raster loading.
--------------------------------------------------------------------- -/

theorem simSteps_zero : simSteps 0 = 0 := by
  have h : (0 : ℚ) * 6 = ((0 : ℤ) : ℚ) := by norm_num
  unfold simSteps
  rw [h, Int.floor_intCast]
  rfl

theorem simSteps_one : simSteps 1 = 6 := by
  have h : (1 : ℚ) * 6 = ((6 : ℤ) : ℚ) := by norm_num
  unfold simSteps
  rw [h, Int.floor_intCast]
  rfl

/-- Claim C1 (counterexample): on a 100x100 grid with ignition pixel
(150, 50) and duration 0, run_simulation does not produce any OutOfBounds
failure signal; it returns an ordinary one-frame series whose cells are all
zero (sampled here at the in-bounds cell (50, 50) and at (50, 150)). -/
theorem claim_C1_counterexample :
    (run_simulation e100 150 50 0 0 0 rollZero).length = 1 ∧
    (run_simulation e100 150 50 0 0 0 rollZero).getD 0 dfltFrame 50 50 = 0 ∧
    (run_simulation e100 150 50 0 0 0 rollZero).getD 0 dfltFrame 50 150 = 0 := by
  have hout : ¬ inb e100 50 150 := by decide
  have hroll : nonnegRolls rollZero := fun _ _ _ => le_refl 0
  refine ⟨?_, ?_, ?_⟩
  · rw [run_length, simSteps_zero]
  · rw [run_getD e100 150 50 0 0 0 rollZero 0 (by omega) 50 50,
        stateAt_all_zero e100 _ rollZero 150 50 hout hroll 0 50 50]
    exact quantize_zero
  · rw [run_getD e100 150 50 0 0 0 rollZero 0 (by omega) 50 150,
        stateAt_all_zero e100 _ rollZero 150 50 hout hroll 0 50 150]
    exact quantize_zero

/-- Claim C1 (amended): for every out-of-bounds ignition pixel,
run_simulation silently ignores the ignition (no OutOfBounds signal exists
in its result type and no exception path is taken): the call returns a
normal series of steps+1 frames in which every cell of every frame is 0,
for any nonnegative random draws. -/
theorem claim_C1_oob_silent (e : Env) (sx sy : ℤ) (speed dir : ℝ) (dur : ℚ)
    (roll : ℕ → ℤ → ℤ → ℝ) (t : ℕ) (y x : ℤ)
    (hout : ¬ inb e sy sx) (hroll : nonnegRolls roll) :
    (run_simulation e sx sy speed dir dur roll).length = simSteps dur + 1 ∧
    (run_simulation e sx sy speed dir dur roll).getD t dfltFrame y x = 0 := by
  refine ⟨run_length e sx sy speed dir dur roll, ?_⟩
  by_cases ht : t < simSteps dur + 1
  · rw [run_getD e sx sy speed dir dur roll t ht y x,
        stateAt_all_zero e _ roll sx sy hout hroll t y x]
    exact quantize_zero
  · exact run_getD_out e sx sy speed dir dur roll t ht y x

theorem claim_C1_oob_silent_witness :
    ¬ inb e100 50 150 ∧ nonnegRolls rollZero ∧
    ((run_simulation e100 150 50 0 0 1 rollZero).length = simSteps 1 + 1 ∧
     (run_simulation e100 150 50 0 0 1 rollZero).getD 2 dfltFrame 50 50 = 0) :=
  ⟨by decide, fun _ _ _ => le_refl 0,
    claim_C1_oob_silent e100 150 50 0 0 1 rollZero 2 50 50 (by decide)
      (fun _ _ _ => le_refl 0)⟩

/-- Claim C3 (counterexample): constructing the engine over a missing hazard
raster surfaces no error at all: _load_geospatial_data succeeds and the
instance holds a usable 600x800 grid. -/
theorem claim_C3_counterexample :
    (load_geospatial_data .missing).H = 600 ∧
    (load_geospatial_data .missing).W = 800 ∧
    (load_geospatial_data .missing).risk 0 0 = 0 :=
  ⟨rfl, rfl, rfl⟩

/-- Claim C3 (amended): a missing raster path and an unreadable raster are
both swallowed silently: _load_geospatial_data returns the same default
all-zero 600x800 grid in either case and construction succeeds normally. -/
theorem claim_C3_silent_default :
    load_geospatial_data .missing = load_geospatial_data .unreadable ∧
    (load_geospatial_data .unreadable).H = 600 ∧
    (load_geospatial_data .unreadable).W = 800 ∧
    ∀ y x : ℤ, (load_geospatial_data .unreadable).risk y x = 0 :=
  ⟨rfl, rfl, rfl, fun _ _ => rfl⟩

/-- Claim C4: for every run from an in-bounds ignition pixel, any wind, any
duration and any outcome of the per-cell draws, each cell of each frame is
less than or equal to its value in the next frame: a cell never reverts. -/
theorem claim_C4_monotone (e : Env) (sx sy : ℤ) (speed dir : ℝ) (dur : ℚ)
    (roll : ℕ → ℤ → ℤ → ℝ) (t : ℕ) (y x : ℤ) (hin : inb e sy sx)
    (ht : t + 1 < (run_simulation e sx sy speed dir dur roll).length) :
    (run_simulation e sx sy speed dir dur roll).getD t dfltFrame y x ≤
      (run_simulation e sx sy speed dir dur roll).getD (t + 1) dfltFrame y x := by
  rw [run_length] at ht
  rw [run_getD e sx sy speed dir dur roll t (by omega) y x,
      run_getD e sx sy speed dir dur roll (t + 1) ht y x]
  exact quantize_mono01 (stateAt_mem01 e _ roll sx sy t y x)
    (stateAt_mem01 e _ roll sx sy (t + 1) y x)
    (stateAt_le_succ e _ roll sx sy t y x)

theorem claim_C4_monotone_witness :
    inb envW 0 0 ∧ 0 + 1 < (run_simulation envW 0 0 0 0 1 rollZero).length ∧
    (run_simulation envW 0 0 0 0 1 rollZero).getD 0 dfltFrame 0 0 ≤
      (run_simulation envW 0 0 0 0 1 rollZero).getD (0 + 1) dfltFrame 0 0 :=
  ⟨by decide, by rw [run_length, simSteps_one]; decide,
    claim_C4_monotone envW 0 0 0 0 1 rollZero 0 0 0 (by decide)
      (by rw [run_length, simSteps_one]; decide)⟩

/-- Claim C10: for every in-bounds ignition pixel, the frame count is
steps+1 (steps = floor(duration*6)); with duration 0 the single frame holds
the full quantised intensity 255 exactly at the ignition pixel and 0 at
every other cell. -/
theorem claim_C10_zero_duration (e : Env) (sx sy : ℤ) (speed dir : ℝ)
    (roll : ℕ → ℤ → ℤ → ℝ) (dur : ℚ) (y x : ℤ) (hin : inb e sy sx) :
    (run_simulation e sx sy speed dir dur roll).length = simSteps dur + 1 ∧
    (run_simulation e sx sy speed dir 0 roll).getD 0 dfltFrame sy sx = 255 ∧
    (¬(y = sy ∧ x = sx) →
      (run_simulation e sx sy speed dir 0 roll).getD 0 dfltFrame y x = 0) := by
  refine ⟨run_length e sx sy speed dir dur roll, ?_, ?_⟩
  · rw [run_getD e sx sy speed dir 0 roll 0 (by omega) sy sx]
    show quantize (initState e sx sy sy sx) = 255
    unfold initState
    rw [if_pos ⟨hin, rfl, rfl⟩]
    exact quantize_one
  · intro hne
    rw [run_getD e sx sy speed dir 0 roll 0 (by omega) y x]
    show quantize (initState e sx sy y x) = 0
    unfold initState
    rw [if_neg (fun h => hne ⟨h.2.1, h.2.2⟩)]
    exact quantize_zero

theorem claim_C10_zero_duration_witness :
    inb envW 0 0 ∧
    ((run_simulation envW 0 0 0 0 1 rollZero).length = simSteps 1 + 1 ∧
     (run_simulation envW 0 0 0 0 0 rollZero).getD 0 dfltFrame 0 0 = 255 ∧
     (¬((1 : ℤ) = 0 ∧ (0 : ℤ) = 0) →
       (run_simulation envW 0 0 0 0 0 rollZero).getD 0 dfltFrame 1 0 = 0)) :=
  ⟨by decide, claim_C10_zero_duration envW 0 0 0 0 rollZero 1 1 0 (by decide)⟩

/- ---------------------------------------------------------------------
Helper lemmas: the greedy allocator.
--------------------------------------------------------------------- -/

theorem betterOf_cases (tname : String) (noise : ℕ → ℚ) (k : ℕ) (a : Asset)
    (acc : Option (Asset × ℚ)) :
    betterOf tname noise k a acc = some (a, scoreBase tname a + noise k) ∨
      betterOf tname noise k a acc = acc := by
  rcases acc with _ | ⟨b, bs⟩
  · left; rfl
  · by_cases hc : bs < scoreBase tname a + noise k
    · left
      show (if bs < scoreBase tname a + noise k
        then some (a, scoreBase tname a + noise k) else some (b, bs)) = _
      rw [if_pos hc]
    · right
      show (if bs < scoreBase tname a + noise k
        then some (a, scoreBase tname a + noise k) else some (b, bs)) = _
      rw [if_neg hc]

theorem pickBestAux_mem (tname : String) (noise : ℕ → ℚ) :
    ∀ (l : List Asset) (k : ℕ) (acc : Option (Asset × ℚ)) (q : Asset × ℚ),
      pickBestAux tname noise l k acc = some q → q.1 ∈ l ∨ acc = some q := by
  intro l
  induction l with
  | nil => intro k acc q h; right; exact h
  | cons a rest ih =>
      intro k acc q h
      have h' : pickBestAux tname noise rest (k + 1)
          (betterOf tname noise k a acc) = some q := h
      rcases ih (k + 1) _ q h' with hm | he
      · left; exact List.mem_cons_of_mem a hm
      · rcases betterOf_cases tname noise k a acc with hb | hb
        · rw [hb] at he
          left
          have hq : q = (a, scoreBase tname a + noise k) := (Option.some_inj.1 he).symm
          rw [hq]
          exact List.mem_cons_self a rest
        · right; rw [← hb]; exact he

theorem pickBestAux_dominant (tname : String) (noise : ℕ → ℚ) :
    ∀ (l : List Asset) (k : ℕ) (b : Asset) (bs : ℚ),
      (∀ a ∈ l, ∀ j, k ≤ j → scoreBase tname a + noise j ≤ bs) →
      pickBestAux tname noise l k (some (b, bs)) = some (b, bs) := by
  intro l
  induction l with
  | nil => intro k b bs _; rfl
  | cons a rest ih =>
      intro k b bs h
      show pickBestAux tname noise rest (k + 1)
        (betterOf tname noise k a (some (b, bs))) = some (b, bs)
      have hle : scoreBase tname a + noise k ≤ bs :=
        h a (List.mem_cons_self a rest) k (le_refl k)
      have hb : betterOf tname noise k a (some (b, bs)) = some (b, bs) := by
        show (if bs < scoreBase tname a + noise k
          then some (a, scoreBase tname a + noise k) else some (b, bs)) = some (b, bs)
        rw [if_neg (not_lt.2 hle)]
      rw [hb]
      exact ih (k + 1) b bs
        (fun a' ha' j hj => h a' (List.mem_cons_of_mem a ha') j
          (le_trans (Nat.le_succ k) hj))

theorem optimizeAux_cons_some (noise : ℕ → ℚ) (tn : String) (tc : ℚ × ℚ)
    (rest : List (String × ℚ × ℚ)) (fleet : List Asset) (k : ℕ) (a : Asset)
    (s : ℚ) (h : pickBestAux tn noise fleet k none = some (a, s)) :
    optimizeAux noise ((tn, tc) :: rest) fleet k =
      ⟨a.id, tn, tc⟩ ::
        optimizeAux noise rest (fleet.filter (fun b => b.id != a.id))
          (k + fleet.length) := by
  simp only [optimizeAux]
  rw [h]

theorem optimizeAux_cons_none (noise : ℕ → ℚ) (tn : String) (tc : ℚ × ℚ)
    (rest : List (String × ℚ × ℚ)) (fleet : List Asset) (k : ℕ)
    (h : pickBestAux tn noise fleet k none = none) :
    optimizeAux noise ((tn, tc) :: rest) fleet k =
      optimizeAux noise rest fleet (k + fleet.length) := by
  simp only [optimizeAux]
  rw [h]

theorem length_filter_lt {α : Type} (p : α → Bool) (l : List α) (a : α)
    (ha : a ∈ l) (hpa : p a = false) : (l.filter p).length < l.length := by
  induction l with
  | nil => cases ha
  | cons b t ih =>
      rcases List.mem_cons.1 ha with rfl | hat
      · have hle := List.length_filter_le p t
        simp [List.filter_cons, hpa]
        omega
      · have h1 := ih hat
        have hle := List.length_filter_le p t
        cases hb : p b <;> simp [List.filter_cons, hb] <;> omega

theorem optimizeAux_length_ts (noise : ℕ → ℚ) :
    ∀ (ts : List (String × ℚ × ℚ)) (fleet : List Asset) (k : ℕ),
      (optimizeAux noise ts fleet k).length ≤ ts.length := by
  intro ts
  induction ts with
  | nil => intro fleet k; simp [optimizeAux]
  | cons t rest ih =>
      rcases t with ⟨tn, tc⟩
      intro fleet k
      cases hp : pickBestAux tn noise fleet k none with
      | none =>
          rw [optimizeAux_cons_none noise tn tc rest fleet k hp]
          have := ih fleet (k + fleet.length)
          simp only [List.length_cons]
          omega
      | some q =>
          rcases q with ⟨a, s⟩
          rw [optimizeAux_cons_some noise tn tc rest fleet k a s hp]
          have := ih (fleet.filter (fun b => b.id != a.id)) (k + fleet.length)
          simp only [List.length_cons]
          omega

theorem optimizeAux_length_fleet (noise : ℕ → ℚ) :
    ∀ (ts : List (String × ℚ × ℚ)) (fleet : List Asset) (k : ℕ),
      (optimizeAux noise ts fleet k).length ≤ fleet.length := by
  intro ts
  induction ts with
  | nil => intro fleet k; simp [optimizeAux]
  | cons t rest ih =>
      rcases t with ⟨tn, tc⟩
      intro fleet k
      cases hp : pickBestAux tn noise fleet k none with
      | none =>
          rw [optimizeAux_cons_none noise tn tc rest fleet k hp]
          exact ih fleet (k + fleet.length)
      | some q =>
          rcases q with ⟨a, s⟩
          have hmem : a ∈ fleet := by
            rcases pickBestAux_mem tn noise fleet k none (a, s) hp with hm | he
            · exact hm
            · cases he
          have hf : (fleet.filter (fun b => b.id != a.id)).length < fleet.length :=
            length_filter_lt _ fleet a hmem (by simp)
          rw [optimizeAux_cons_some noise tn tc rest fleet k a s hp]
          have := ih (fleet.filter (fun b => b.id != a.id)) (k + fleet.length)
          simp only [List.length_cons]
          omega

theorem optimizeAux_target_mem (noise : ℕ → ℚ) :
    ∀ (ts : List (String × ℚ × ℚ)) (fleet : List Asset) (k : ℕ)
      (asg : Assignment), asg ∈ optimizeAux noise ts fleet k →
        asg.target ∈ ts.map Prod.fst := by
  intro ts
  induction ts with
  | nil => intro fleet k asg h; simp [optimizeAux] at h
  | cons t rest ih =>
      rcases t with ⟨tn, tc⟩
      intro fleet k asg h
      simp only [List.map_cons]
      cases hp : pickBestAux tn noise fleet k none with
      | none =>
          rw [optimizeAux_cons_none noise tn tc rest fleet k hp] at h
          exact List.mem_cons_of_mem _ (ih fleet _ asg h)
      | some q =>
          rcases q with ⟨a, s⟩
          rw [optimizeAux_cons_some noise tn tc rest fleet k a s hp] at h
          rcases List.mem_cons.1 h with rfl | h2
          · exact List.mem_cons_self _ _
          · exact List.mem_cons_of_mem _ (ih _ _ asg h2)

theorem optimizeAux_asset_mem (noise : ℕ → ℚ) :
    ∀ (ts : List (String × ℚ × ℚ)) (fleet : List Asset) (k : ℕ)
      (asg : Assignment), asg ∈ optimizeAux noise ts fleet k →
        asg.asset_id ∈ fleet.map Asset.id := by
  intro ts
  induction ts with
  | nil => intro fleet k asg h; simp [optimizeAux] at h
  | cons t rest ih =>
      rcases t with ⟨tn, tc⟩
      intro fleet k asg h
      cases hp : pickBestAux tn noise fleet k none with
      | none =>
          rw [optimizeAux_cons_none noise tn tc rest fleet k hp] at h
          exact ih fleet _ asg h
      | some q =>
          rcases q with ⟨a, s⟩
          have hmem : a ∈ fleet := by
            rcases pickBestAux_mem tn noise fleet k none (a, s) hp with hm | he
            · exact hm
            · cases he
          rw [optimizeAux_cons_some noise tn tc rest fleet k a s hp] at h
          rcases List.mem_cons.1 h with rfl | h2
          · exact List.mem_map_of_mem Asset.id hmem
          · exact ((List.filter_sublist fleet).map Asset.id).subset (ih _ _ asg h2)

theorem optimizeAux_targets_nodup (noise : ℕ → ℚ) :
    ∀ (ts : List (String × ℚ × ℚ)), (ts.map Prod.fst).Nodup →
      ∀ (fleet : List Asset) (k : ℕ),
        ((optimizeAux noise ts fleet k).map (fun asg => asg.target)).Nodup := by
  intro ts
  induction ts with
  | nil => intro _ fleet k; simp [optimizeAux]
  | cons t rest ih =>
      rcases t with ⟨tn, tc⟩
      intro hnd fleet k
      simp only [List.map_cons, List.nodup_cons] at hnd
      cases hp : pickBestAux tn noise fleet k none with
      | none =>
          rw [optimizeAux_cons_none noise tn tc rest fleet k hp]
          exact ih hnd.2 fleet _
      | some q =>
          rcases q with ⟨a, s⟩
          rw [optimizeAux_cons_some noise tn tc rest fleet k a s hp]
          simp only [List.map_cons, List.nodup_cons]
          refine ⟨?_, ih hnd.2 _ _⟩
          intro hmem
          rcases List.mem_map.1 hmem with ⟨asg, hasg, htn⟩
          have hmt := optimizeAux_target_mem noise rest _ _ asg hasg
          rw [htn] at hmt
          exact hnd.1 hmt

theorem optimizeAux_ids_nodup (noise : ℕ → ℚ) :
    ∀ (ts : List (String × ℚ × ℚ)) (fleet : List Asset) (k : ℕ),
      (fleet.map Asset.id).Nodup →
      ((optimizeAux noise ts fleet k).map (fun asg => asg.asset_id)).Nodup := by
  intro ts
  induction ts with
  | nil => intro fleet k _; simp [optimizeAux]
  | cons t rest ih =>
      rcases t with ⟨tn, tc⟩
      intro fleet k hnd
      cases hp : pickBestAux tn noise fleet k none with
      | none =>
          rw [optimizeAux_cons_none noise tn tc rest fleet k hp]
          exact ih fleet _ hnd
      | some q =>
          rcases q with ⟨a, s⟩
          rw [optimizeAux_cons_some noise tn tc rest fleet k a s hp]
          simp only [List.map_cons, List.nodup_cons]
          constructor
          · intro hmem
            rcases List.mem_map.1 hmem with ⟨asg, hasg, hid⟩
            have h2 := optimizeAux_asset_mem noise rest _ _ asg hasg
            rw [hid] at h2
            rcases List.mem_map.1 h2 with ⟨b, hb, hbid⟩
            have hbf := List.mem_filter.1 hb
            rw [hbid] at hbf
            exact absurd hbf.2 (by simp)
          · exact ih _ _
              (List.Nodup.sublist ((List.filter_sublist fleet).map Asset.id) hnd)

/- ---------------------------------------------------------------------
Claims C7, C8, C9: the greedy allocator.
--------------------------------------------------------------------- -/

theorem scoreBase_tanker :
    scoreBase "Alpha Head" ⟨"TANKER-01", "Aerial", "Head"⟩ = 80 := by
  have h1 : containsStr "Alpha Head" "Head" = true := by decide
  simp [scoreBase, h1]
  norm_num

theorem scoreBase_flank_zero (idv : String) :
    scoreBase "Alpha Head" ⟨idv, "Ground", "Flank"⟩ = 0 := by
  have h1 : containsStr "Alpha Head" "Flank" = false := by decide
  have h2 : (("Ground" == "Aerial") : Bool) = false := by decide
  simp [scoreBase, h1, h2]

theorem scoreBase_drone_zero :
    scoreBase "Alpha Head" ⟨"DRONE-X1", "Intel", "Spot"⟩ = 0 := by
  have h1 : containsStr "Alpha Head" "Spot" = false := by decide
  have h2 : (("Intel" == "Aerial") : Bool) = false := by decide
  simp [scoreBase, h1, h2]

theorem noiseZero_bound : noiseBound noiseZero := by
  intro k
  constructor <;> norm_num [noiseZero]

/-- Claim C7: with target mapping {"Alpha Head": (0,0)} and the fixed
five-unit roster, whose only Aerial unit is TANKER-01, optimize_response
assigns TANKER-01 to Alpha Head for every outcome of the per-unit noise
draws in [-5, 5] (in particular with the noise pinned to zero). -/
theorem claim_C7_aerial_selected (noise : ℕ → ℚ) (h : noiseBound noise) :
    (optimize_response ⟨defaultFleet⟩ [("Alpha Head", ((0 : ℚ), (0 : ℚ)))] noise).1 =
      [⟨"TANKER-01", "Alpha Head", (0, 0)⟩] := by
  have hpick : pickBestAux "Alpha Head" noise defaultFleet 0 none =
      some (⟨"TANKER-01", "Aerial", "Head"⟩,
        scoreBase "Alpha Head" ⟨"TANKER-01", "Aerial", "Head"⟩ + noise 0) := by
    show pickBestAux "Alpha Head" noise
        [⟨"ENGINE-A", "Ground", "Flank"⟩, ⟨"ENGINE-B", "Ground", "Flank"⟩,
         ⟨"DRONE-X1", "Intel", "Spot"⟩, ⟨"CREW-ZULU", "Ground", "Flank"⟩] 1
        (some (⟨"TANKER-01", "Aerial", "Head"⟩,
          scoreBase "Alpha Head" ⟨"TANKER-01", "Aerial", "Head"⟩ + noise 0)) =
      some (⟨"TANKER-01", "Aerial", "Head"⟩,
        scoreBase "Alpha Head" ⟨"TANKER-01", "Aerial", "Head"⟩ + noise 0)
    refine pickBestAux_dominant "Alpha Head" noise _ 1 _ _ ?_
    intro a ha j hj
    have hj5 : noise j ≤ 5 := (h j).2
    have h05 : -5 ≤ noise 0 := (h 0).1
    rw [scoreBase_tanker]
    fin_cases ha
    · rw [scoreBase_flank_zero]; linarith
    · rw [scoreBase_flank_zero]; linarith
    · rw [scoreBase_drone_zero]; linarith
    · rw [scoreBase_flank_zero]; linarith
  show optimizeAux noise [("Alpha Head", ((0 : ℚ), (0 : ℚ)))] defaultFleet 0 =
    [⟨"TANKER-01", "Alpha Head", (0, 0)⟩]
  rw [optimizeAux_cons_some noise "Alpha Head" (0, 0) [] defaultFleet 0 _ _ hpick]
  rfl

theorem claim_C7_aerial_selected_witness :
    noiseBound noiseZero ∧
    (optimize_response ⟨defaultFleet⟩ [("Alpha Head", ((0 : ℚ), (0 : ℚ)))] noiseZero).1 =
      [⟨"TANKER-01", "Alpha Head", (0, 0)⟩] :=
  ⟨noiseZero_bound, claim_C7_aerial_selected noiseZero noiseZero_bound⟩

/-- Claim C8: every allocation call ends with the fleet reinstalled from
the fixed five-unit roster, so the post-call state equals a fresh solver
and any subsequent call behaves exactly like a call on a fresh solver. -/
theorem claim_C8_fleet_reset (s : Solver) (targets : List (String × ℚ × ℚ))
    (noise : ℕ → ℚ) :
    (optimize_response s targets noise).2.fleet = defaultFleet ∧
    ∀ (targets2 : List (String × ℚ × ℚ)) (noise2 : ℕ → ℚ),
      optimize_response (optimize_response s targets noise).2 targets2 noise2 =
        optimize_response ⟨defaultFleet⟩ targets2 noise2 :=
  ⟨rfl, fun _ _ => rfl⟩

/-- Claim C9: for every ordered target mapping (distinct labels, as in a
python dict) and every noise outcome, the run from the fresh roster yields
at most min(#targets, #fleet) assignments, with no asset id and no target
label repeated; surplus targets are simply not assigned (the result is a
plain shorter list, not an error). -/
theorem claim_C9_assignment_bounds (targets : List (String × ℚ × ℚ))
    (noise : ℕ → ℚ) (hnd : (targets.map Prod.fst).Nodup) :
    (optimize_response ⟨defaultFleet⟩ targets noise).1.length ≤
      min targets.length defaultFleet.length ∧
    ((optimize_response ⟨defaultFleet⟩ targets noise).1.map
      (fun asg => asg.asset_id)).Nodup ∧
    ((optimize_response ⟨defaultFleet⟩ targets noise).1.map
      (fun asg => asg.target)).Nodup :=
  ⟨le_min (optimizeAux_length_ts noise targets defaultFleet 0)
      (optimizeAux_length_fleet noise targets defaultFleet 0),
    optimizeAux_ids_nodup noise targets defaultFleet 0 (by decide),
    optimizeAux_targets_nodup noise targets hnd defaultFleet 0⟩

theorem claim_C9_assignment_bounds_witness :
    (([("Alpha Head", ((0 : ℚ), (0 : ℚ))), ("Bravo Flank", (1, 1))].map Prod.fst).Nodup) ∧
    ((optimize_response ⟨defaultFleet⟩
        [("Alpha Head", ((0 : ℚ), (0 : ℚ))), ("Bravo Flank", (1, 1))] noiseZero).1.length ≤
      min ([("Alpha Head", ((0 : ℚ), (0 : ℚ))), ("Bravo Flank", (1, 1))].length)
        defaultFleet.length ∧
    ((optimize_response ⟨defaultFleet⟩
        [("Alpha Head", ((0 : ℚ), (0 : ℚ))), ("Bravo Flank", (1, 1))] noiseZero).1.map
      (fun asg => asg.asset_id)).Nodup ∧
    ((optimize_response ⟨defaultFleet⟩
        [("Alpha Head", ((0 : ℚ), (0 : ℚ))), ("Bravo Flank", (1, 1))] noiseZero).1.map
      (fun asg => asg.target)).Nodup) :=
  ⟨by decide,
    claim_C9_assignment_bounds
      [("Alpha Head", ((0 : ℚ), (0 : ℚ))), ("Bravo Flank", (1, 1))] noiseZero (by decide)⟩

/- ---------------------------------------------------------------------
Claim C6: routing fallback.
--------------------------------------------------------------------- -/

/-- Claim C6: for every target coordinate and ground-asset id (no "TANKER"
or "DRONE" in the id), when the road graph is unavailable or the smart
route attempt fails, calculate_route returns (it is total, so no exception
escapes) a route tagged "Direct (Nav Fail)" whose path is exactly the two
points base and target. -/
theorem claim_C6_route_fallback (g : GraphState) (latT lonT : ℝ) (assetId : String)
    (hT : containsStr assetId "TANKER" = false)
    (hD : containsStr assetId "DRONE" = false)
    (hg : g = GraphState.absent ∨ g = GraphState.present none) :
    (calculate_route g latT lonT assetId).type = "Direct (Nav Fail)" ∧
    (calculate_route g latT lonT assetId).path =
      [((BASES (resolveBase assetId)).lat, (BASES (resolveBase assetId)).lon),
       (latT, lonT)] := by
  have hcond : (containsStr assetId "TANKER" || containsStr assetId "DRONE") = false := by
    rw [hT, hD]
    rfl
  rcases hg with rfl | rfl <;>
    simp [calculate_route, hcond, make_direct_route]

theorem claim_C6_route_fallback_witness :
    containsStr "ENGINE-A" "TANKER" = false ∧
    containsStr "ENGINE-A" "DRONE" = false ∧
    (GraphState.absent = GraphState.absent ∨
      GraphState.absent = GraphState.present none) ∧
    ((calculate_route GraphState.absent 19 (-104) "ENGINE-A").type =
        "Direct (Nav Fail)" ∧
     (calculate_route GraphState.absent 19 (-104) "ENGINE-A").path =
       [((BASES (resolveBase "ENGINE-A")).lat, (BASES (resolveBase "ENGINE-A")).lon),
        (19, -104)]) :=
  ⟨by decide, by decide, Or.inl rfl,
    claim_C6_route_fallback GraphState.absent 19 (-104) "ENGINE-A"
      (by decide) (by decide) (Or.inl rfl)⟩

/- ---------------------------------------------------------------------
Claim C5: Alpha Head selection.
--------------------------------------------------------------------- -/

theorem argmaxGo_spec :
    ∀ (rest pre : List ℝ) (bi : ℕ) (bv : ℝ),
      bi < pre.length → (pre ++ rest).getD bi 0 = bv → (∀ y ∈ pre, y ≤ bv) →
      argmaxGo rest pre.length bi bv < (pre ++ rest).length ∧
        ∀ y ∈ pre ++ rest, y ≤ (pre ++ rest).getD (argmaxGo rest pre.length bi bv) 0 := by
  intro rest
  induction rest with
  | nil =>
      intro pre bi bv hbi hget hall
      constructor
      · rw [List.append_nil]
        exact hbi
      · intro y hy
        rw [List.append_nil] at hy ⊢
        show y ≤ pre.getD bi 0
        rw [List.append_nil] at hget
        rw [hget]
        exact hall y hy
  | cons x rest ih =>
      intro pre bi bv hbi hget hall
      by_cases hc : bv < x
      · have hget' : ((pre ++ [x]) ++ rest).getD pre.length 0 = x := by
          rw [List.append_assoc, List.singleton_append]
          rw [List.getD_append_right pre (x :: rest) 0 pre.length (le_refl _)]
          simp
        have hall' : ∀ y ∈ pre ++ [x], y ≤ x := by
          intro y hy
          rcases List.mem_append.1 hy with h1 | h1
          · exact le_trans (hall y h1) (le_of_lt hc)
          · rw [List.mem_singleton.1 h1]
        have key := ih (pre ++ [x]) pre.length x
          (by rw [List.length_append, List.length_singleton]; omega) hget' hall'
        rw [List.append_assoc, List.singleton_append] at key
        have hlen : (pre ++ [x]).length = pre.length + 1 := by
          rw [List.length_append, List.length_singleton]
        rw [hlen] at key
        constructor
        · show (if bv < x then argmaxGo rest (pre.length + 1) pre.length x
            else argmaxGo rest (pre.length + 1) bi bv) < (pre ++ x :: rest).length
          rw [if_pos hc]
          exact key.1
        · intro y hy
          show y ≤ (pre ++ x :: rest).getD
            (if bv < x then argmaxGo rest (pre.length + 1) pre.length x
             else argmaxGo rest (pre.length + 1) bi bv) 0
          rw [if_pos hc]
          exact key.2 y hy
      · have hget' : ((pre ++ [x]) ++ rest).getD bi 0 = bv := by
          rw [List.append_assoc, List.singleton_append]
          exact hget
        have hall' : ∀ y ∈ pre ++ [x], y ≤ bv := by
          intro y hy
          rcases List.mem_append.1 hy with h1 | h1
          · exact hall y h1
          · rw [List.mem_singleton.1 h1]
            exact not_lt.1 hc
        have key := ih (pre ++ [x]) bi bv
          (by rw [List.length_append, List.length_singleton]; omega) hget' hall'
        rw [List.append_assoc, List.singleton_append] at key
        have hlen : (pre ++ [x]).length = pre.length + 1 := by
          rw [List.length_append, List.length_singleton]
        rw [hlen] at key
        constructor
        · show (if bv < x then argmaxGo rest (pre.length + 1) pre.length x
            else argmaxGo rest (pre.length + 1) bi bv) < (pre ++ x :: rest).length
          rw [if_neg hc]
          exact key.1
        · intro y hy
          show y ≤ (pre ++ x :: rest).getD
            (if bv < x then argmaxGo rest (pre.length + 1) pre.length x
             else argmaxGo rest (pre.length + 1) bi bv) 0
          rw [if_neg hc]
          exact key.2 y hy

theorem argmaxIdx_spec (l : List ℝ) (hne : l ≠ []) :
    argmaxIdx l < l.length ∧ ∀ y ∈ l, y ≤ l.getD (argmaxIdx l) 0 := by
  cases l with
  | nil => exact absurd rfl hne
  | cons x rest =>
      have key := argmaxGo_spec rest [x] 0 x (by simp) (by simp)
        (by intro y hy; rw [List.mem_singleton.1 hy])
      rw [List.singleton_append] at key
      exact key

theorem spread_vec_ninety : spread_vec 90 = (1, 0) := by
  have h : ((90 : ℝ) - 90) * Real.pi / 180 = 0 := by ring
  unfold spread_vec radians
  rw [h, Real.cos_zero, Real.sin_zero]

/-- Claim C5: with wind bearing 90, the spread vector produced by the same
bearing-to-pixel-axis rotation as the kernel is (1, 0), and the Alpha Head
vertex (the contour vertex of maximum projection of vertex - centroid onto
that vector) is an easternmost contour vertex: a member of the contour
whose x coordinate is at least that of every vertex. -/
theorem claim_C5_alpha_easternmost (pts : List (ℤ × ℤ)) (cx cy : ℤ)
    (hne : pts ≠ []) (q : ℤ × ℤ) (hq : q ∈ pts) :
    spread_vec 90 = (1, 0) ∧ alpha_head pts cx cy 90 ∈ pts ∧
      q.1 ≤ (alpha_head pts cx cy 90).1 := by
  have hproj : projections pts cx cy 90 = pts.map (fun p => ((p.1 - cx : ℤ) : ℝ)) := by
    unfold projections
    rw [spread_vec_ninety]
    simp
  have hlen : (projections pts cx cy 90).length = pts.length := by
    unfold projections
    rw [List.length_map]
  have hnep : projections pts cx cy 90 ≠ [] := by
    rw [hproj]
    simp only [ne_eq, List.map_eq_nil_iff]
    exact hne
  obtain ⟨hlt, hmax⟩ := argmaxIdx_spec (projections pts cx cy 90) hnep
  have hilt : argmaxIdx (projections pts cx cy 90) < pts.length := by
    rw [← hlen]
    exact hlt
  refine ⟨spread_vec_ninety, ?_, ?_⟩
  · unfold alpha_head
    rw [List.getD_eq_getElem pts (0, 0) hilt]
    exact List.getElem_mem hilt
  · have hilt2 : argmaxIdx (pts.map (fun p => ((p.1 - cx : ℤ) : ℝ))) < pts.length := by
      rw [← hproj]
      exact hilt
    have hgd : ∀ (i : ℕ), i < pts.length →
        (pts.map (fun p => ((p.1 - cx : ℤ) : ℝ))).getD i 0 =
          (((pts.getD i (0, 0)).1 - cx : ℤ) : ℝ) := by
      intro i hi
      rw [List.getD_eq_getElem _ _ (by rw [List.length_map]; exact hi),
        List.getElem_map, List.getD_eq_getElem pts (0, 0) hi]
    have hqproj : ((q.1 - cx : ℤ) : ℝ) ∈ projections pts cx cy 90 := by
      rw [hproj]
      exact List.mem_map_of_mem _ hq
    have hle := hmax _ hqproj
    rw [hproj, hgd _ hilt2] at hle
    have hint : q.1 - cx ≤
        (pts.getD (argmaxIdx (pts.map (fun p => ((p.1 - cx : ℤ) : ℝ)))) (0, 0)).1 - cx :=
      Int.cast_le.1 hle
    unfold alpha_head
    rw [hproj]
    omega

theorem claim_C5_alpha_easternmost_witness :
    ([((0 : ℤ), (0 : ℤ)), (2, 1), (1, 0)] ≠ ([] : List (ℤ × ℤ))) ∧
    (((0 : ℤ), (0 : ℤ)) ∈ [((0 : ℤ), (0 : ℤ)), (2, 1), (1, 0)]) ∧
    (spread_vec 90 = (1, 0) ∧
      alpha_head [((0 : ℤ), (0 : ℤ)), (2, 1), (1, 0)] 1 0 90 ∈
        [((0 : ℤ), (0 : ℤ)), (2, 1), (1, 0)] ∧
      ((0 : ℤ), (0 : ℤ)).1 ≤ (alpha_head [((0 : ℤ), (0 : ℤ)), (2, 1), (1, 0)] 1 0 90).1) :=
  ⟨by decide, by decide,
    claim_C5_alpha_easternmost [((0 : ℤ), (0 : ℤ)), (2, 1), (1, 0)] 1 0
      (by decide) ((0 : ℤ), (0 : ℤ)) (by decide)⟩

/- ---------------------------------------------------------------------
Claim C2: the wind kernel at the failing input (speed 10, bearing 0).
--------------------------------------------------------------------- -/

theorem wind_uv_ten_north : wind_uv 10 0 = (0, -(4 / 5)) := by
  unfold wind_uv radians wind_factor
  have h : ((0 : ℝ) - 90) * Real.pi / 180 = -(Real.pi / 2) := by ring
  rw [h, Real.cos_neg, Real.sin_neg, Real.cos_pi_div_two, Real.sin_pi_div_two]
  simp only [Prod.mk.injEq]
  constructor <;> norm_num

/-- Claim C2, evaluated at the failing input wind speed 10, bearing 0
(northerly): the computed bias is v = -0.8, so the kernel's top (north)
row k[0,:] is raised to 0.9 while the bottom (south) row k[2,:] keeps the
base weight 0.1 — the opposite row from the one the claim (and the code's
own comments) designate. -/
theorem claim_C2_kernel_bearing0 :
    generate_wind_kernel 10 0 0 0 = 9 / 10 ∧ generate_wind_kernel 10 0 0 1 = 9 / 10 ∧
    generate_wind_kernel 10 0 0 2 = 9 / 10 ∧ generate_wind_kernel 10 0 1 0 = 1 / 10 ∧
    generate_wind_kernel 10 0 1 1 = 0 ∧ generate_wind_kernel 10 0 1 2 = 1 / 10 ∧
    generate_wind_kernel 10 0 2 0 = 1 / 10 ∧ generate_wind_kernel 10 0 2 1 = 1 / 10 ∧
    generate_wind_kernel 10 0 2 2 = 1 / 10 := by
  have hu : (wind_uv 10 0).1 = 0 := by rw [wind_uv_ten_north]
  have hv : (wind_uv 10 0).2 = -(4 / 5) := by rw [wind_uv_ten_north]
  have c1 : ¬(0 < -((4 : ℝ) / 5)) := by norm_num
  have c2 : -((4 : ℝ) / 5) < 0 := by norm_num
  have c3 : ¬((0 : ℝ) < 0) := lt_irrefl 0
  have c4 : |(4 : ℝ) / 5| = 4 / 5 := abs_of_pos (by norm_num)
  unfold generate_wind_kernel
  rw [hu, hv]
  refine ⟨?_, ?_, ?_, ?_, ?_, ?_, ?_, ?_, ?_⟩ <;> simp [c1, c2, c3, c4] <;> norm_num
